import Mathlib

/-!
# Verification of `parse.py` (otpauth-migration URL decoder)

A shallow embedding of the decoder in `src/parse.py` together with the
Python standard-library routines it calls (`urllib.parse.urlparse`,
`urllib.parse.parse_qs`, `urllib.parse.quote`, `urllib.parse.unquote`,
`base64.b64decode`, `base64.b32encode`) and — modelled from the spec,
since the generated protobuf binding `OtpMigration_pb2` is not part of
the sources — the wire decoder `MigrationPayload.FromString` and the
enum tables.

Machine strings are modelled as Lean `String`/`List Char`; raw bytes as
`List Nat` with every element below 256.  Fallible Python code (raising
exceptions) is modelled with `Except PipelineError`.
-/

set_option maxRecDepth 8192

/-- The failure modes of the pipeline, following the error taxonomy of the
design (wrong scheme, missing `data` parameter, malformed base64, malformed
wire payload, unresolvable digit count) plus the `ValueError` raised by the
generated enum `Name` lookup on an unknown numeric value. -/
inductive PipelineError where
  | schemeError
  | missingDataError
  | decodeError
  | malformedPayloadError
  | unresolvedDigitsError
  | enumNameError
deriving DecidableEq

/-! ## Character helpers -/

/-- Uppercase hexadecimal digit, as produced by `urllib.parse.quote`.
Arguments are always below 16 at use sites; the final case is a totality
guard. -/
def hexDigitChar (n : Nat) : Char :=
  match n with
  | 0 => '0' | 1 => '1' | 2 => '2' | 3 => '3' | 4 => '4'
  | 5 => '5' | 6 => '6' | 7 => '7' | 8 => '8' | 9 => '9'
  | 10 => 'A' | 11 => 'B' | 12 => 'C' | 13 => 'D' | 14 => 'E' | 15 => 'F'
  | _ => 'X'

/-- Value of a hexadecimal digit character (either case), `none` otherwise. -/
def hexVal (c : Char) : Option Nat :=
  if 48 ≤ c.toNat ∧ c.toNat ≤ 57 then some (c.toNat - 48)
  else if 65 ≤ c.toNat ∧ c.toNat ≤ 70 then some (c.toNat - 55)
  else if 97 ≤ c.toNat ∧ c.toNat ≤ 102 then some (c.toNat - 87)
  else none

/-- ASCII lowercase of one character, as `str.lower` does on ASCII data. -/
def asciiLower (c : Char) : Char :=
  if 65 ≤ c.toNat ∧ c.toNat ≤ 90 then Char.ofNat (c.toNat + 32) else c

/-- ASCII lowercase of a string. -/
def asciiLowerStr (s : String) : String :=
  String.mk (s.data.map asciiLower)

/-- ASCII letter test, as `str.isalpha` restricted to ASCII. -/
def isAsciiAlpha (c : Char) : Bool :=
  (65 ≤ c.toNat && c.toNat ≤ 90) || (97 ≤ c.toNat && c.toNat ≤ 122)

/-- ASCII digit test. -/
def isAsciiDigit (c : Char) : Bool :=
  48 ≤ c.toNat && c.toNat ≤ 57

/-! ## `urllib.parse.quote` -/

/-- Bytes a character contributes under UTF-8, the encoding
`urllib.parse.quote` applies before escaping.  The cases follow the
standard UTF-8 ranges; every `Char` is below `0x110000` so the final
guard case never fires. -/
def utf8Bytes (c : Char) : List Nat :=
  if c.toNat < 128 then [c.toNat]
  else if c.toNat < 2048 then [192 + c.toNat / 64, 128 + c.toNat % 64]
  else if c.toNat < 65536 then
    [224 + c.toNat / 4096, 128 + (c.toNat / 64) % 64, 128 + c.toNat % 64]
  else if c.toNat < 1114112 then
    [240 + c.toNat / 262144, 128 + (c.toNat / 4096) % 64,
     128 + (c.toNat / 64) % 64, 128 + c.toNat % 64]
  else []

/-- Characters `urllib.parse.quote` leaves unescaped with its default
`safe='/'`: ASCII letters, digits, `_.-~` and `/`. -/
def isSafeByte (b : Nat) : Bool :=
  (65 ≤ b && b ≤ 90) || (97 ≤ b && b ≤ 122) || (48 ≤ b && b ≤ 57) ||
    b == 45 || b == 46 || b == 95 || b == 126 || b == 47

/-- Percent-escape of a single byte, as `urllib.parse.quote` emits it. -/
def quoteByte (b : Nat) : List Char :=
  if isSafeByte b then [Char.ofNat b]
  else ['%', hexDigitChar (b / 16), hexDigitChar (b % 16)]

/-- `urllib.parse.quote(s)` with the default `safe='/'`: UTF-8 encode, then
percent-escape every byte outside the safe set. -/
def quote (s : String) : String :=
  String.mk ((s.data.flatMap utf8Bytes).flatMap quoteByte)

/-! ## `urllib.parse.unquote` -/

/-- Percent-decoding of a character list: each `%` followed by two hex
digits becomes the denoted byte, anything else is copied through.  This
models `urllib.parse.unquote` for payloads whose decoded bytes are ASCII
(the library would additionally UTF-8-decode multi-byte sequences). -/
def percentDecode : List Char → List Char
  | [] => []
  | '%' :: a :: b :: rest =>
    match hexVal a, hexVal b with
    | some ha, some hb => Char.ofNat (16 * ha + hb) :: percentDecode rest
    | _, _ => '%' :: percentDecode (a :: b :: rest)
  | c :: rest => c :: percentDecode rest

/-- `urllib.parse.unquote`. -/
def unquote (s : String) : String :=
  String.mk (percentDecode s.data)

/-- The `+` → space substitution `urllib.parse.unquote_plus` applies
before percent-decoding. -/
def plusToSpace (s : String) : String :=
  String.mk (s.data.map (fun c => if c = '+' then ' ' else c))

/-- `urllib.parse.unquote_plus`, used by `parse_qs` on names and values. -/
def unquote_plus (s : String) : String :=
  unquote (plusToSpace s)

/-! ## `urllib.parse.urlparse` and `parse_qs` -/

/-- Split a character list at every occurrence of `sep`. -/
def splitOnChar (sep : Char) : List Char → List (List Char)
  | [] => [[]]
  | c :: rest =>
    let groups := splitOnChar sep rest
    if c = sep then [] :: groups
    else match groups with
      | g :: gs => (c :: g) :: gs
      | [] => [[c]]

/-- The part of the list before the first occurrence of `sep` (the whole
list if `sep` is absent). -/
def takeUntilChar (sep : Char) : List Char → List Char
  | [] => []
  | c :: rest => if c = sep then [] else c :: takeUntilChar sep rest

/-- The part of the list after the first occurrence of `sep`, or `none`
if `sep` is absent. -/
def afterChar (sep : Char) : List Char → Option (List Char)
  | [] => none
  | c :: rest => if c = sep then some rest else afterChar sep rest

/-- Characters allowed in a URL scheme after the leading letter
(`urllib.parse.scheme_chars`). -/
def isSchemeChar (c : Char) : Bool :=
  isAsciiAlpha c || isAsciiDigit c || c == '+' || c == '-' || c == '.'

/-- The scheme component of `urllib.parse.urlparse`: the lowercased text
before the first `:`, provided it is nonempty, starts with an ASCII letter
and uses only scheme characters; otherwise the scheme is empty. -/
def urlScheme (url : String) : String :=
  match afterChar ':' url.data with
  | none => ""
  | some _ =>
    let pre := takeUntilChar ':' url.data
    match pre with
    | [] => ""
    | c :: _ =>
      if isAsciiAlpha c && pre.all isSchemeChar then
        String.mk (pre.map asciiLower)
      else ""

/-- The query component of `urllib.parse.urlparse`: the text after the
first `?` of the fragment-stripped URL (empty if there is no `?`). -/
def urlQuery (url : String) : String :=
  match afterChar '?' (takeUntilChar '#' url.data) with
  | none => ""
  | some q => String.mk q

/-- The raw (still percent-encoded) name/value pairs of a query string, as
`urllib.parse.parse_qsl` extracts them before decoding: split on `&`,
split each piece at its first `=`, drop pieces without `=` and pieces with
an empty value (`keep_blank_values` is false). -/
def parse_qsl_raw (query : String) : List (String × String) :=
  (splitOnChar '&' query.data).filterMap fun piece =>
    match afterChar '=' piece with
    | none => none
    | some v =>
      if v = [] then none
      else some (String.mk (takeUntilChar '=' piece), String.mk v)

/-- The first raw value bound to `data` in the query string of `url`:
`parse_qs` decodes names with `unquote_plus` and keeps values in insertion
order, so `qs["data"][0]` is the decoded value of this raw pair. -/
def firstDataRaw (url : String) : Option String :=
  ((parse_qsl_raw (urlQuery url)).find? fun kv => unquote_plus kv.1 = "data").map
    (·.2)

/-! ## `base64.b64decode` and `base64.b32encode` -/

/-- Value of a base64 alphabet character. -/
def b64val (c : Char) : Option Nat :=
  if 65 ≤ c.toNat ∧ c.toNat ≤ 90 then some (c.toNat - 65)
  else if 97 ≤ c.toNat ∧ c.toNat ≤ 122 then some (c.toNat - 97 + 26)
  else if 48 ≤ c.toNat ∧ c.toNat ≤ 57 then some (c.toNat - 48 + 52)
  else if c = '+' then some 62
  else if c = '/' then some 63
  else none

/-- Lenient base64 scan (`binascii.a2b_base64` without `strict_mode`):
collect alphabet characters, ignore everything else, and stop at a `=`
that arrives when the current quad already holds at least two characters.
Returns the collected sextets and whether padding terminated the data. -/
def b64scan : List Char → Nat → List Nat × Bool
  | [], _ => ([], false)
  | c :: rest, pos =>
    match b64val c with
    | some v =>
      let (s, t) := b64scan rest ((pos + 1) % 4)
      (v :: s, t)
    | none =>
      if c = '=' && pos % 4 ≥ 2 then ([], true)
      else b64scan rest pos

/-- Reassemble decoded sextets into bytes, including the bytes of a final
partial quad of two or three sextets. -/
def quadsToBytes : List Nat → List Nat
  | a :: b :: c :: d :: rest =>
    [a * 4 + b / 16, (b % 16) * 16 + c / 4, (c % 4) * 64 + d] ++
      quadsToBytes rest
  | [a, b] => [a * 4 + b / 16]
  | [a, b, c] => [a * 4 + b / 16, (b % 16) * 16 + c / 4]
  | _ => []

/-- `base64.b64decode` on text input: non-alphabet characters are
discarded; a quad left with one character fails, and a quad left with two
or three characters fails unless `=` padding closed it. -/
def b64decode (s : String) : Except PipelineError (List Nat) :=
  let (sx, terminated) := b64scan s.data 0
  let m := sx.length % 4
  if m = 1 then .error .decodeError
  else if m ≠ 0 && !terminated then .error .decodeError
  else .ok (quadsToBytes sx)

/-- Character `n` of the RFC 4648 base32 alphabet (`A`–`Z`, `2`–`7`). -/
def b32char (n : Nat) : Char :=
  if n < 26 then Char.ofNat (65 + n) else Char.ofNat (50 + (n - 26))

/-- The eight base32 characters of one 40-bit group. -/
def b32group8 (v : Nat) : List Char :=
  [b32char (v / 2 ^ 35 % 32), b32char (v / 2 ^ 30 % 32),
   b32char (v / 2 ^ 25 % 32), b32char (v / 2 ^ 20 % 32),
   b32char (v / 2 ^ 15 % 32), b32char (v / 2 ^ 10 % 32),
   b32char (v / 2 ^ 5 % 32), b32char (v % 32)]

/-- The 40-bit value of five bytes. -/
def b32group (a b c d e : Nat) : Nat :=
  a * 2 ^ 32 + b * 2 ^ 24 + c * 2 ^ 16 + d * 2 ^ 8 + e

/-- Characters of `base64.b32encode`: full five-byte groups produce eight
alphabet characters; a final short group is zero-padded, truncated to the
RFC 4648 character count and completed with `=` padding. -/
def b32chars : List Nat → List Char
  | [] => []
  | [a] => (b32group8 (b32group a 0 0 0 0)).take 2 ++ List.replicate 6 '='
  | [a, b] => (b32group8 (b32group a b 0 0 0)).take 4 ++ List.replicate 4 '='
  | [a, b, c] => (b32group8 (b32group a b c 0 0)).take 5 ++ List.replicate 3 '='
  | [a, b, c, d] =>
    (b32group8 (b32group a b c d 0)).take 7 ++ List.replicate 1 '='
  | a :: b :: c :: d :: e :: rest => b32group8 (b32group a b c d e) ++ b32chars rest

/-- `base64.b32encode`, as text (the Python value is `bytes`; the code
reads it back as text with `.decode()` in the URI and via `repr` in the
field dump). -/
def b32encode (bs : List Nat) : String :=
  String.mk (b32chars bs)

/-- The text Python prints for the `bytes` value `b32encode(secret)` in an
f-string: the `repr`, i.e. the base32 text wrapped in `b'...'` (every
base32 character is printable, so `repr` never escapes). -/
def pyBytesRepr (s : String) : String :=
  String.mk ('b' :: Char.ofNat 39 :: s.data ++ [Char.ofNat 39])

/-! ## Data model (`MigrationPayload`, `OtpParameter`) and enum tables

The protobuf schema and its generated binding `OtpMigration_pb2` are not
part of the sources; the message shapes, field numbers and enum values
below are modelled from the spec (data model and wire-decoder sections).
-/

/-- Modelled from the spec: one decoded `OtpParameter` entry.  Enum fields
keep their raw numeric wire value, as the generated binding does. -/
structure OtpParameter where
  secret : List Nat
  name : String
  issuer : String
  algorithm : Nat
  digits : Nat
  type : Nat
  counter : Nat
deriving DecidableEq

/-- Modelled from the spec: the top-level decoded message. -/
structure MigrationPayload where
  version : Nat
  batch_size : Nat
  batch_index : Nat
  batch_id : Nat
  otp_parameters : List OtpParameter
deriving DecidableEq

/-- Modelled from the spec: `DigitCount.SIX` has numeric value 1. -/
def DigitCount.SIX : Nat := 1

/-- Modelled from the spec: `DigitCount.EIGHT` has numeric value 2. -/
def DigitCount.EIGHT : Nat := 2

/-- Modelled from the spec: `DigitCount.Name`, the generated enum-name
lookup (`UNSPECIFIED`, `SIX`, `EIGHT`); an unknown numeric value raises. -/
def DigitCount.Name (n : Nat) : Except PipelineError String :=
  match n with
  | 0 => .ok "UNSPECIFIED"
  | 1 => .ok "SIX"
  | 2 => .ok "EIGHT"
  | _ => .error .enumNameError

/-- Modelled from the spec: `Algorithm.Name` for the algorithm enum
(`UNSPECIFIED`, `SHA1`, `SHA256`, `SHA512`, `MD5`). -/
def Algorithm.Name (n : Nat) : Except PipelineError String :=
  match n with
  | 0 => .ok "UNSPECIFIED"
  | 1 => .ok "SHA1"
  | 2 => .ok "SHA256"
  | 3 => .ok "SHA512"
  | 4 => .ok "MD5"
  | _ => .error .enumNameError

/-- Modelled from the spec: `OtpType.Name` for the OTP type enum
(`UNSPECIFIED`, `HOTP`, `TOTP`). -/
def OtpType.Name (n : Nat) : Except PipelineError String :=
  match n with
  | 0 => .ok "UNSPECIFIED"
  | 1 => .ok "HOTP"
  | 2 => .ok "TOTP"
  | _ => .error .enumNameError

/-- `num_digits` from `parse.py`: resolves the digit-count enum value to a
literal count, raising `ValueError` (the `UnresolvedDigitsError` of the
taxonomy) for anything other than `SIX` or `EIGHT`. -/
def num_digits (digit_count : Nat) : Except PipelineError Nat :=
  if digit_count = DigitCount.SIX then .ok 6
  else if digit_count = DigitCount.EIGHT then .ok 8
  else .error .unresolvedDigitsError

/-! ## Wire decoder (`MigrationPayload.FromString`)

Modelled from the spec: a tag/length-prefixed binary format with varint
and length-delimited wire types, unknown field numbers skipped, truncation
and unsupported wire types failing with `MalformedPayloadError`. -/

/-- Modelled from the spec: read one varint (little-endian 7-bit groups
with continuation bit); fails on truncation. -/
def readVarint : List Nat → Except PipelineError (Nat × List Nat)
  | [] => .error .malformedPayloadError
  | b :: rest =>
    if b < 128 then .ok (b, rest)
    else do
      let (v, r) ← readVarint rest
      .ok (b % 128 + 128 * v, r)

/-- Modelled from the spec: read a length-delimited chunk (varint length,
then that many bytes); fails if fewer bytes remain than declared. -/
def readLenDelim (bs : List Nat) : Except PipelineError (List Nat × List Nat) := do
  let (n, r) ← readVarint bs
  if n ≤ r.length then .ok (r.take n, r.drop n)
  else .error .malformedPayloadError

/-- Text carried by a length-delimited string field.  The payloads decoded
here are ASCII; this models the binding's UTF-8 string decode on them. -/
def asciiString (bs : List Nat) : String :=
  String.mk (bs.map Char.ofNat)

/-- Modelled from the spec: the field loop of the embedded `OtpParameter`
message (1 `secret`, 2 `name`, 3 `issuer`, 4 `algorithm`, 5 `digits`,
6 `type`, 7 `counter`; unknown field numbers skipped).  The fuel argument
is the number of remaining bytes, enough because every iteration consumes
at least one byte. -/
def parseOtpFields : Nat → List Nat → OtpParameter → Except PipelineError OtpParameter
  | _, [], p => .ok p
  | 0, _ :: _, _ => .error .malformedPayloadError
  | fuel + 1, b :: bs, p => do
    let (tag, r1) ← readVarint (b :: bs)
    if tag % 8 = 0 then do
      let (v, r2) ← readVarint r1
      let p2 :=
        if tag / 8 = 4 then { p with algorithm := v }
        else if tag / 8 = 5 then { p with digits := v }
        else if tag / 8 = 6 then { p with type := v }
        else if tag / 8 = 7 then { p with counter := v }
        else p
      parseOtpFields fuel r2 p2
    else if tag % 8 = 2 then do
      let (chunk, r2) ← readLenDelim r1
      let p2 :=
        if tag / 8 = 1 then { p with secret := chunk }
        else if tag / 8 = 2 then { p with name := asciiString chunk }
        else if tag / 8 = 3 then { p with issuer := asciiString chunk }
        else p
      parseOtpFields fuel r2 p2
    else .error .malformedPayloadError

/-- Modelled from the spec: the field loop of the top-level message
(1 repeated `OtpParameter`, 2 `version`, 3 `batch_size`, 4 `batch_index`,
5 `batch_id`; unknown field numbers skipped). -/
def parsePayloadFields : Nat → List Nat → MigrationPayload →
    Except PipelineError MigrationPayload
  | _, [], pl => .ok pl
  | 0, _ :: _, _ => .error .malformedPayloadError
  | fuel + 1, b :: bs, pl => do
    let (tag, r1) ← readVarint (b :: bs)
    if tag % 8 = 0 then do
      let (v, r2) ← readVarint r1
      let pl2 :=
        if tag / 8 = 2 then { pl with version := v }
        else if tag / 8 = 3 then { pl with batch_size := v }
        else if tag / 8 = 4 then { pl with batch_index := v }
        else if tag / 8 = 5 then { pl with batch_id := v }
        else pl
      parsePayloadFields fuel r2 pl2
    else if tag % 8 = 2 then do
      let (chunk, r2) ← readLenDelim r1
      if tag / 8 = 1 then do
        let param ← parseOtpFields chunk.length chunk ⟨[], "", "", 0, 0, 0, 0⟩
        parsePayloadFields fuel r2
          { pl with otp_parameters := pl.otp_parameters ++ [param] }
      else parsePayloadFields fuel r2 pl
    else .error .malformedPayloadError

/-- Modelled from the spec: `MigrationPayload.FromString`, decoding raw
bytes into the structured payload (proto3 defaults: zero and empty). -/
def MigrationPayload.FromString (bs : List Nat) :
    Except PipelineError MigrationPayload :=
  parsePayloadFields bs.length bs ⟨0, 0, 0, 0, []⟩

/-! ## The decode pipeline of `parse.py` -/

/-- `parse_url` from `parse.py`: require scheme `otpauth-migration`
(`TypeError`, the `SchemeError` of the taxonomy), require a `data` query
parameter (`ValueError`, the `MissingDataError`), then return the first
`data` value with one further explicit `unquote` applied on top of the
decoding `parse_qs` already performed. -/
def parse_url (url : String) : Except PipelineError String :=
  if urlScheme url ≠ "otpauth-migration" then .error .schemeError
  else
    match firstDataRaw url with
    | none => .error .missingDataError
    | some raw => .ok (unquote (unquote_plus raw))

/-- `decode_qs` from `parse.py`: one more `unquote`, then base64. -/
def decode_qs (data : String) : Except PipelineError (List Nat) :=
  b64decode (unquote data)

/-- The lines `version: …`, `batch_size: …`, `batch_index: …`,
`batch_id: …`, `otp_parameters:` that `decode_secrets` appends first. -/
def headerLines (payload : MigrationPayload) : List String :=
  ["version: " ++ toString payload.version,
   "batch_size: " ++ toString payload.batch_size,
   "batch_index: " ++ toString payload.batch_index,
   "batch_id: " ++ toString payload.batch_id,
   "otp_parameters:"]

/-- The `otpauth://` URI `decode_secrets` builds for one entry.  Note the
faithfully reproduced source behaviour on the `digits=` parameter: it is
`num_digits(params.algorithm)`, the digit-count resolution applied to the
`algorithm` field. -/
def otpauthUrl (params : OtpParameter) : Except PipelineError String := do
  let typeName ← OtpType.Name params.type
  let algoName ← Algorithm.Name params.algorithm
  let digitsVal ← num_digits params.algorithm
  .ok ("otpauth://" ++ asciiLowerStr typeName ++ "/" ++ quote params.issuer ++
    ":" ++ quote params.name ++ "?secret=" ++ b32encode params.secret ++
    "&issuer=" ++ quote params.issuer ++ "&algorithm=" ++
    asciiLowerStr algoName ++ "&digits=" ++ toString digitsVal ++
    "&counter=" ++ toString params.counter)

/-- The lines `decode_secrets` appends for one entry: the URI and the
human-readable field dump (the secret rendered through Python `repr` of
the `bytes` value, hence the `b'...'` wrapper). -/
def paramBlock (params : OtpParameter) : Except PipelineError (List String) := do
  let url ← otpauthUrl params
  let algoName ← Algorithm.Name params.algorithm
  let digitsName ← DigitCount.Name params.digits
  let typeName ← OtpType.Name params.type
  .ok ["  " ++ url,
    "  secret: " ++ pyBytesRepr (b32encode params.secret),
    "  name: " ++ params.name,
    "  issuer: " ++ params.issuer,
    "  algorithm: " ++ algoName,
    "  digits: " ++ digitsName,
    "  type: " ++ typeName,
    "  counter: " ++ toString params.counter ++ "\n"]

/-- The `for params in payload.otp_parameters` loop of `decode_secrets`:
blocks in wire order, the first raised error aborting the whole call. -/
def blockLines : List OtpParameter → Except PipelineError (List String)
  | [] => .ok []
  | p :: rest => do
    let b ← paramBlock p
    let bs ← blockLines rest
    .ok (b ++ bs)

/-- `decode_secrets` from `parse.py` on a structured payload: the header
fields, then one block per entry, joined with newlines. -/
def decode_secrets (payload : MigrationPayload) : Except PipelineError String := do
  let bs ← blockLines payload.otp_parameters
  .ok (String.intercalate "\n" (headerLines payload ++ bs))

/-- The stages of `process_url` that run outside its `try` block: base64
transport decoding, wire decoding, and report/URI building. -/
def pipelineTail (data : String) : Except PipelineError String := do
  let decoded_data ← decode_qs data
  let payload ← MigrationPayload.FromString decoded_data
  decode_secrets payload

/-- `process_url` from `parse.py`.  Only `parse_url` runs inside the
`try/except (TypeError, ValueError)`: its failures become a diagnostic
(`eprint`) and a `None` result.  Failures of the later stages escape as
exceptions, modelled by the `Except.error` case.  The result pairs the
optional report text with the diagnostics printed to standard error. -/
def process_url (url_input : String) :
    Except PipelineError (Option String × List PipelineError) :=
  match parse_url url_input with
  | .error e => .ok (none, [e])
  | .ok data =>
    match pipelineTail data with
    | .error e => .error e
    | .ok s => .ok (some s, [])

/-- Whitespace set of Python `str.strip` (the characters that can occur
around a URL line in a text file). -/
def isPyStripSpace (c : Char) : Bool :=
  c == ' ' || c == '\t' || c == '\n' || c == '\r' ||
    c == Char.ofNat 11 || c == Char.ofNat 12

/-- Python `line.strip()`. -/
def pyStrip (s : String) : String :=
  String.mk (((s.data.dropWhile isPyStripSpace).reverse.dropWhile
    isPyStripSpace).reverse)

/-- The `--file` loop of `main`: strip each line, skip blanks, run
`process_url`, collect non-`None` results in order; an exception escaping
`process_url` aborts the whole loop (and the process). -/
def runBatch : List String → Except PipelineError (List String × List PipelineError)
  | [] => .ok ([], [])
  | line :: rest =>
    let url_input := pyStrip line
    if url_input = "" then runBatch rest
    else do
      let (r, ds) ← process_url url_input
      let (results, ds2) ← runBatch rest
      .ok (r.toList ++ results, ds ++ ds2)

/-- The report texts of the lines that decode successfully, in input-line
order (blank lines skipped), stated independently of `runBatch`. -/
def successOutputs : List String → List String
  | [] => []
  | line :: rest =>
    if pyStrip line = "" then successOutputs rest
    else
      match process_url (pyStrip line) with
      | .ok (some s, _) => s :: successOutputs rest
      | _ => successOutputs rest

/-- `output_text = "\n".join(results)` of `main`, when the loop finishes. -/
def outputText (lines : List String) : Except PipelineError String :=
  (runBatch lines).map fun x => String.intercalate "\n" x.1

/-- The string handed to `b64decode` for a given input URL: `process_url`
passes the `parse_url` result through `decode_qs`, whose first step is the
explicit `unquote`. -/
def b64input (url : String) : Option String :=
  match parse_url url with
  | .ok data => some (unquote data)
  | .error _ => none

/-! ## Substring test used to state the report-content claims -/

/-- `pat` occurs at the head of `text`. -/
def leadMatch : List Char → List Char → Bool
  | [], _ => true
  | _ :: _, [] => false
  | a :: as, b :: bs => a = b && leadMatch as bs

/-- `pat` occurs somewhere in `text`. -/
def occursIn (pat : List Char) : List Char → Bool
  | [] => pat.isEmpty
  | b :: bs => leadMatch pat (b :: bs) || occursIn pat bs

/-- `strContains s pat`: `pat` is a substring of `s`. -/
def strContains (s pat : String) : Bool :=
  occursIn pat.data s.data

/-! ## Helper lemmas -/

theorem char_toNat_lt (c : Char) : c.toNat < 1114112 := by
  have h := c.valid
  rw [UInt32.isValidChar, Nat.isValidChar] at h
  show c.val.toNat < 1114112
  omega

theorem utf8Bytes_lt (c : Char) : ∀ b ∈ utf8Bytes c, b < 256 := by
  have hc := char_toNat_lt c
  intro b hb
  simp only [utf8Bytes] at hb
  split at hb
  · simp at hb; omega
  · split at hb
    · simp at hb; rcases hb with h | h <;> omega
    · split at hb
      · simp at hb; rcases hb with h | h | h <;> omega
      · simp at hb; rcases hb with h | h | h | h <;> omega

theorem quoteByte_reserved :
    ∀ b : Fin 256, ∀ c ∈ quoteByte b.val,
      c ≠ ':' ∧ c ≠ '@' ∧ c ≠ '?' ∧ c ≠ '&' := by decide

theorem quote_avoids_reserved (s : String) :
    ∀ c ∈ (quote s).data, c ≠ ':' ∧ c ≠ '@' ∧ c ≠ '?' ∧ c ≠ '&' := by
  intro c hc
  simp only [quote, List.mem_flatMap] at hc
  obtain ⟨b, hb, hcb⟩ := hc
  obtain ⟨ch, hch, hbch⟩ := hb
  exact quoteByte_reserved ⟨b, utf8Bytes_lt ch b hbch⟩ c hcb

/-! ## Claim theorems -/

/-- C5: digit-count resolution returns 6 for `SIX` and 8 for `EIGHT`, and
raises `UnresolvedDigitsError` for every other numeric value (including
`UNSPECIFIED` and unknown values). -/
theorem c5_num_digits_resolution (d : Nat) :
    (d = DigitCount.SIX → num_digits d = .ok 6) ∧
    (d = DigitCount.EIGHT → num_digits d = .ok 8) ∧
    (d ≠ DigitCount.SIX → d ≠ DigitCount.EIGHT →
      num_digits d = .error .unresolvedDigitsError) := by
  refine ⟨fun h => ?_, fun h => ?_, fun h1 h2 => ?_⟩
  · simp [num_digits, h]
  · simp [num_digits, h, DigitCount.SIX, DigitCount.EIGHT]
  · simp [num_digits, h1, h2]

/-- C5 witness: the resolution evaluated at `SIX` (1), `EIGHT` (2),
`UNSPECIFIED` (0) and an unknown value (7). -/
theorem c5_num_digits_resolution_witness :
    num_digits 1 = .ok 6 ∧ num_digits 2 = .ok 8 ∧
    num_digits 0 = .error .unresolvedDigitsError ∧
    num_digits 7 = .error .unresolvedDigitsError :=
  ⟨(c5_num_digits_resolution 1).1 rfl,
   (c5_num_digits_resolution 2).2.1 rfl,
   (c5_num_digits_resolution 0).2.2 (by decide) (by decide),
   (c5_num_digits_resolution 7).2.2 (by decide) (by decide)⟩

/-- C1: claim is right, code is wrong.  For an entry whose `digits` field
is `EIGHT` (value 2, resolving to 8) and whose `algorithm` field is `SHA1`
(value 1, resolving to 6), the generated URI carries `digits=6`: line 79
of `parse.py` computes `num_digits(params.algorithm)` instead of
`num_digits(params.digits)` — the defect the design notes flag. -/
theorem c1_digits_param_uses_algorithm_field :
    otpauthUrl ⟨[1], "N", "I", 1, 2, 2, 0⟩ =
      .ok "otpauth://totp/I:N?secret=AE======&issuer=I&algorithm=sha1&digits=6&counter=0" ∧
    num_digits (OtpParameter.mk [1] "N" "I" 1 2 2 0).digits = .ok 8 ∧
    strContains
      "otpauth://totp/I:N?secret=AE======&issuer=I&algorithm=sha1&digits=6&counter=0"
      "digits=8" = false :=
  ⟨rfl, rfl, rfl⟩

/-- C2 counterexample: a URL with the right scheme and a `data` parameter
whose value is invalid base64 (a single character).  `b64decode` fails
outside the `try` block of `process_url`, so the exception escapes and the
single-line batch aborts instead of being skipped with a diagnostic. -/
theorem c2_only_parse_errors_caught_counterexample :
    process_url "otpauth-migration://offline?data=A" = .error .decodeError ∧
    runBatch ["otpauth-migration://offline?data=A"] = .error .decodeError :=
  ⟨rfl, rfl⟩

/-- C2 amended: only `parse_url` failures (wrong scheme, missing `data`)
are caught at the per-line boundary — one diagnostic, no report entry,
processing continues with the remaining lines; a failure in the later
stages (base64 decoding, wire decoding, URI/report building) escapes
`process_url` and aborts the whole batch. -/
theorem c2_per_line_error_boundary (url line : String) (rest : List String)
    (data : String) (e : PipelineError) :
    (parse_url url = .error e → process_url url = .ok (none, [e])) ∧
    (pyStrip line ≠ "" → parse_url (pyStrip line) = .error e →
      runBatch (line :: rest) = (runBatch rest).map fun x => (x.1, e :: x.2)) ∧
    (parse_url url = .ok data → pipelineTail data = .error e →
      process_url url = .error e) ∧
    (pyStrip line ≠ "" → process_url (pyStrip line) = .error e →
      runBatch (line :: rest) = .error e) := by
  refine ⟨fun h => ?_, fun hne h => ?_, fun h1 h2 => ?_, fun hne h => ?_⟩
  · simp [process_url, h]
  · have hp : process_url (pyStrip line) = .ok (none, [e]) := by
      simp [process_url, h]
    cases hr : runBatch rest with
    | error e2 => simp [runBatch, hne, hp, hr, Bind.bind, Except.bind]; rfl
    | ok pair => simp [runBatch, hne, hp, hr, Bind.bind, Except.bind]; rfl
  · simp [process_url, h1, h2]
  · simp [runBatch, hne, h, Bind.bind, Except.bind]

/-- C2 witness: a wrong-scheme line is caught (one diagnostic, no entry),
and as the head of a batch it only prepends its diagnostic; a bad-base64
line as the head of a batch aborts the whole run. -/
theorem c2_per_line_error_boundary_witness :
    process_url "http://example.com" = .ok (none, [.schemeError]) ∧
    runBatch ["http://example.com", "otpauth-migration://offline?data=A"] =
      (runBatch ["otpauth-migration://offline?data=A"]).map
        (fun x => (x.1, PipelineError.schemeError :: x.2)) ∧
    runBatch ["otpauth-migration://offline?data=A", "http://example.com"] =
      .error .decodeError := by
  refine ⟨?_, ?_, ?_⟩
  · exact (c2_per_line_error_boundary "http://example.com" "" [] "" .schemeError).1 rfl
  · exact (c2_per_line_error_boundary "" "http://example.com"
      ["otpauth-migration://offline?data=A"] "" .schemeError).2.1 (by decide) rfl
  · exact (c2_per_line_error_boundary "" "otpauth-migration://offline?data=A"
      ["http://example.com"] "" .decodeError).2.2.2 (by decide) rfl

/-- C4 counterexample: for a URL whose scheme is wrong AND whose query has
no `data` parameter, `parse_url` fails with the scheme error — not with
the missing-data error, although the `data` parameter is absent.  The
"fails with `MissingDataError` exactly when `data` is absent" direction of
the claim is therefore false: the scheme check runs first. -/
theorem c4_scheme_check_first_counterexample :
    firstDataRaw "http://example.com" = none ∧
    parse_url "http://example.com" = .error .schemeError ∧
    PipelineError.schemeError ≠ .missingDataError :=
  ⟨rfl, rfl, by decide⟩

/-- C4 amended: `SchemeError` exactly when the parsed scheme is not
`otpauth-migration`; `MissingDataError` exactly when the scheme is right
and the query string has no `data` parameter; in either case `process_url`
records exactly one diagnostic and produces no report entry. -/
theorem c4_transport_error_conditions (url : String) :
    (parse_url url = .error .schemeError ↔ urlScheme url ≠ "otpauth-migration") ∧
    (parse_url url = .error .missingDataError ↔
      urlScheme url = "otpauth-migration" ∧ firstDataRaw url = none) ∧
    (∀ e, parse_url url = .error e → process_url url = .ok (none, [e])) := by
  refine ⟨?_, ?_, fun e he => by simp [process_url, he]⟩ <;>
    by_cases hs : urlScheme url = "otpauth-migration"
  · simp only [parse_url, hs]
    cases hd : firstDataRaw url <;> simp [hs]
  · simp [parse_url, hs]
  · simp only [parse_url, hs]
    cases hd : firstDataRaw url <;> simp [hs]
  · simp [parse_url, hs]

/-- C4 witness: the amended conditions evaluated at a wrong-scheme URL and
at a right-scheme URL without a `data` parameter. -/
theorem c4_transport_error_conditions_witness :
    parse_url "http://e" = .error .schemeError ∧
    process_url "http://e" = .ok (none, [.schemeError]) ∧
    parse_url "otpauth-migration://offline" = .error .missingDataError := by
  refine ⟨(c4_transport_error_conditions "http://e").1.mpr (by decide), ?_, ?_⟩
  · exact (c4_transport_error_conditions "http://e").2.2 .schemeError
      ((c4_transport_error_conditions "http://e").1.mpr (by decide))
  · exact (c4_transport_error_conditions "otpauth-migration://offline").2.1.mpr
      ⟨by decide, rfl⟩

/-- C6 counterexample: for the raw query value `%252541` the string handed
to `b64decode` is `A` — the result of three percent-decodings (one
implicit in query-string parsing, then the explicit ones in `parse_url`
line 39 and `decode_qs` line 56) — not `%41`, the result of two.  So the
`data` value does not undergo exactly two percent-decodings. -/
theorem c6_triple_unquote_counterexample :
    firstDataRaw "otpauth-migration://offline?data=%252541" = some "%252541" ∧
    unquote (unquote_plus "%252541") = "%41" ∧
    b64input "otpauth-migration://offline?data=%252541" = some "A" ∧
    ("A" : String) ≠ "%41" :=
  ⟨rfl, rfl, rfl, by decide⟩

/-- C6 amended: the `data` value undergoes exactly three percent-decodings
before base64 decoding — one applied implicitly by query-string parsing
(together with its `+` → space substitution) and two applied explicitly,
in `parse_url` and in `decode_qs`. -/
theorem c6_data_is_percent_decoded_three_times (url raw : String)
    (hs : urlScheme url = "otpauth-migration")
    (hd : firstDataRaw url = some raw) :
    b64input url = some (unquote (unquote (unquote_plus raw))) := by
  simp [b64input, parse_url, hs, hd]

/-- C6 witness: the amended count evaluated on a doubly-escaped value. -/
theorem c6_data_is_percent_decoded_three_times_witness :
    b64input "otpauth-migration://offline?data=%252541" =
      some (unquote (unquote (unquote_plus "%252541"))) :=
  c6_data_is_percent_decoded_three_times
    "otpauth-migration://offline?data=%252541" "%252541" (by decide) rfl

/-- C3 counterexample: the concrete scenario payload decodes successfully,
but its report nowhere contains the claimed URI prefix
`otpauth://totp/Example%3Aalice%40example.com?secret=AAAAAAAAAAAAAAAA====`:
the `:` between issuer and name is emitted literally (line 74 of
`parse.py`), not percent-encoded, and a 10-byte secret encodes to 16
base32 characters with no `=` padding. -/
theorem c3_concrete_scenario_counterexample :
    (decode_secrets ⟨1, 1, 0, 42,
        [⟨List.replicate 10 0, "alice@example.com", "Example", 1, 1, 2, 0⟩]⟩).toOption.map
      (fun r => strContains r
        "otpauth://totp/Example%3Aalice%40example.com?secret=AAAAAAAAAAAAAAAA====") =
      some false := by
  rfl

/-- C3 amended: the scenario payload decodes to a report containing
`issuer: Example`, `digits: SIX` and a URI beginning
`otpauth://totp/Example:alice%40example.com?secret=AAAAAAAAAAAAAAAA&issuer=`
(literal `:` separator, no base32 padding for the 10-byte secret). -/
theorem c3_concrete_scenario :
    (decode_secrets ⟨1, 1, 0, 42,
        [⟨List.replicate 10 0, "alice@example.com", "Example", 1, 1, 2, 0⟩]⟩).toOption.map
      (fun r => strContains r "issuer: Example" && strContains r "digits: SIX" &&
        strContains r
          "otpauth://totp/Example:alice%40example.com?secret=AAAAAAAAAAAAAAAA&issuer=") =
      some true := by
  rfl

/-- C7: `quote` output never contains the reserved characters `:`, `@`,
`?`, `&`; on those characters it produces their percent-escapes; and in
every successfully built URI the issuer and name appear as `quote` of the
entry's fields, between the path slash and the `?secret=` delimiter. -/
theorem c7_issuer_name_percent_encoded (s : String) (p : OtpParameter)
    (u : String) (hu : otpauthUrl p = .ok u) :
    (∀ c ∈ (quote s).data, c ≠ ':' ∧ c ≠ '@' ∧ c ≠ '?' ∧ c ≠ '&') ∧
    quote ":" = "%3A" ∧ quote "@" = "%40" ∧ quote "?" = "%3F" ∧
    quote "&" = "%26" ∧
    ∃ pre post, u.data =
      pre ++ ("/" ++ quote p.issuer ++ ":" ++ quote p.name ++ "?secret=").data ++ post := by
  refine ⟨quote_avoids_reserved s, rfl, rfl, rfl, rfl, ?_⟩
  cases htn : OtpType.Name p.type with
  | error e => simp [otpauthUrl, htn, Bind.bind, Except.bind] at hu
  | ok tn =>
    cases han : Algorithm.Name p.algorithm with
    | error e => simp [otpauthUrl, htn, han, Bind.bind, Except.bind] at hu
    | ok an =>
      cases hnd : num_digits p.algorithm with
      | error e => simp [otpauthUrl, htn, han, hnd, Bind.bind, Except.bind] at hu
      | ok d =>
        simp only [otpauthUrl, htn, han, hnd, Bind.bind, Except.bind,
          Except.ok.injEq] at hu
        refine ⟨("otpauth://" ++ asciiLowerStr tn).data,
          (b32encode p.secret ++ "&issuer=" ++ quote p.issuer ++
            "&algorithm=" ++ asciiLowerStr an ++ "&digits=" ++ toString d ++
            "&counter=" ++ toString p.counter).data, ?_⟩
        rw [← hu]
        simp [String.data_append, List.append_assoc]

/-- C7 witness: the escaping facts, and the quoted issuer/name position in
the URI built for a concrete entry. -/
theorem c7_issuer_name_percent_encoded_witness :
    quote ":" = "%3A" ∧
    (∀ c ∈ (quote "a:b@c?d&e").data, c ≠ ':' ∧ c ≠ '@' ∧ c ≠ '?' ∧ c ≠ '&') ∧
    ∃ pre post,
      ("otpauth://totp/:?secret=AE======&issuer=&algorithm=sha1&digits=6&counter=0" : String).data =
        pre ++ ("/" ++ quote "" ++ ":" ++ quote "" ++ "?secret=").data ++ post := by
  have h := c7_issuer_name_percent_encoded "a:b@c?d&e" ⟨[1], "", "", 1, 1, 2, 0⟩
    "otpauth://totp/:?secret=AE======&issuer=&algorithm=sha1&digits=6&counter=0" rfl
  exact ⟨h.2.1, h.1, h.2.2.2.2.2⟩

/-- RFC 4648 base32 padding length as a function of the residual byte
count: 0, 1, 2, 3 or 4 bytes left over from full five-byte groups need
0, 6, 4, 3 or 1 padding characters. -/
def b32padLen : Nat → Nat
  | 0 => 0
  | 1 => 6
  | 2 => 4
  | 3 => 3
  | _ => 1

/-- Membership in the RFC 4648 base32 alphabet `A`–`Z`, `2`–`7`. -/
def isB32AlphaChar (c : Char) : Bool :=
  (65 ≤ c.toNat && c.toNat ≤ 90) || (50 ≤ c.toNat && c.toNat ≤ 55)

theorem b32char_alpha (n : Nat) : isB32AlphaChar (b32char (n % 32)) = true := by
  have hall : ∀ m : Fin 32, isB32AlphaChar (b32char m.val) = true := by decide
  exact hall ⟨n % 32, Nat.mod_lt _ (by norm_num)⟩

theorem b32group8_alpha (v : Nat) :
    ∀ c ∈ b32group8 v, isB32AlphaChar c = true := by
  intro c hc
  simp only [b32group8, List.mem_cons, List.not_mem_nil, or_false] at hc
  rcases hc with h | h | h | h | h | h | h | h <;> subst h <;>
    exact b32char_alpha _

theorem b32chars_spec : ∀ n bs, List.length bs ≤ n →
    ∃ body, b32chars bs = body ++ List.replicate (b32padLen (bs.length % 5)) '=' ∧
      (∀ c ∈ body, isB32AlphaChar c = true) ∧
      (b32chars bs).length = 8 * ((bs.length + 4) / 5) := by
  intro n
  induction n with
  | zero =>
    intro bs h
    have hb : bs = [] := List.eq_nil_of_length_eq_zero (Nat.le_zero.mp h)
    subst hb
    exact ⟨[], by simp [b32chars, b32padLen], by simp, by simp [b32chars]⟩
  | succ n ih =>
    intro bs h
    match bs with
    | [] => exact ⟨[], by simp [b32chars, b32padLen], by simp, by simp [b32chars]⟩
    | [a] =>
      refine ⟨(b32group8 (b32group a 0 0 0 0)).take 2, rfl, ?_,
        by simp [b32chars, b32group8]⟩
      intro c hc
      exact b32group8_alpha _ c (List.mem_of_mem_take hc)
    | [a, b] =>
      refine ⟨(b32group8 (b32group a b 0 0 0)).take 4, rfl, ?_,
        by simp [b32chars, b32group8]⟩
      intro c hc
      exact b32group8_alpha _ c (List.mem_of_mem_take hc)
    | [a, b, c] =>
      refine ⟨(b32group8 (b32group a b c 0 0)).take 5, rfl, ?_,
        by simp [b32chars, b32group8]⟩
      intro d hd
      exact b32group8_alpha _ d (List.mem_of_mem_take hd)
    | [a, b, c, d] =>
      refine ⟨(b32group8 (b32group a b c d 0)).take 7, rfl, ?_,
        by simp [b32chars, b32group8]⟩
      intro e he
      exact b32group8_alpha _ e (List.mem_of_mem_take he)
    | a :: b :: c :: d :: e :: rest =>
      have hr : rest.length ≤ n := by
        simp only [List.length_cons] at h
        omega
      obtain ⟨body, h1, h2, h3⟩ := ih rest hr
      refine ⟨b32group8 (b32group a b c d e) ++ body, ?_, ?_, ?_⟩
      · have hm : (a :: b :: c :: d :: e :: rest).length % 5 = rest.length % 5 := by
          simp only [List.length_cons]
          omega
        rw [hm]
        show b32group8 (b32group a b c d e) ++ b32chars rest = _
        rw [h1, List.append_assoc]
      · intro x hx
        rcases List.mem_append.mp hx with hx | hx
        · exact b32group8_alpha _ x hx
        · exact h2 x hx
      · show (b32group8 (b32group a b c d e) ++ b32chars rest).length = _
        rw [List.length_append, h3]
        have hg : (b32group8 (b32group a b c d e)).length = 8 := by rfl
        rw [hg]
        simp only [List.length_cons]
        omega

/-- C8: base32 encoding of the secret is a total pure function on byte
sequences (it is a Lean function, defined for every list including the
empty one): the output is an alphabet body followed by exactly the
standard RFC 4648 padding for the input length — padding retained, never
stripped — and the output length is always `8 * ⌈n / 5⌉`. -/
theorem c8_b32encode_total_with_padding (bs : List Nat) :
    ∃ body, (b32encode bs).data =
      body ++ List.replicate (b32padLen (bs.length % 5)) '=' ∧
      (∀ c ∈ body, isB32AlphaChar c = true) ∧
      (b32encode bs).data.length = 8 * ((bs.length + 4) / 5) := by
  obtain ⟨body, h1, h2, h3⟩ := b32chars_spec bs.length bs (le_refl _)
  exact ⟨body, h1, h2, h3⟩

/-- C10: in each entry block the dump line for the secret renders the
base32 value through Python `repr` of a `bytes` object — the base32 text
wrapped in `b'...'` — while the `secret=` URI parameter carries the same
base32 text plain (`.decode()`); the two renderings differ exactly by the
wrapper. -/
theorem c10_secret_two_renderings (p : OtpParameter) (u : String)
    (ls : List String) (hu : otpauthUrl p = .ok u)
    (hb : paramBlock p = .ok ls) :
    ls[1]? = some ("  secret: " ++ pyBytesRepr (b32encode p.secret)) ∧
    pyBytesRepr (b32encode p.secret) =
      String.mk ('b' :: Char.ofNat 39 ::
        ((b32encode p.secret).data ++ [Char.ofNat 39])) ∧
    ∃ pre post, u.data =
      pre ++ ("?secret=" ++ b32encode p.secret ++ "&issuer=").data ++ post := by
  refine ⟨?_, rfl, ?_⟩
  · cases han : Algorithm.Name p.algorithm with
    | error e => simp [paramBlock, hu, han, Bind.bind, Except.bind] at hb
    | ok an =>
      cases hdn : DigitCount.Name p.digits with
      | error e => simp [paramBlock, hu, han, hdn, Bind.bind, Except.bind] at hb
      | ok dn =>
        cases htn : OtpType.Name p.type with
        | error e =>
          simp [paramBlock, hu, han, hdn, htn, Bind.bind, Except.bind] at hb
        | ok tn =>
          simp only [paramBlock, hu, han, hdn, htn, Bind.bind, Except.bind,
            Except.ok.injEq] at hb
          rw [← hb]
          rfl
  · cases htn : OtpType.Name p.type with
    | error e => simp [otpauthUrl, htn, Bind.bind, Except.bind] at hu
    | ok tn =>
      cases han : Algorithm.Name p.algorithm with
      | error e => simp [otpauthUrl, htn, han, Bind.bind, Except.bind] at hu
      | ok an =>
        cases hnd : num_digits p.algorithm with
        | error e =>
          simp [otpauthUrl, htn, han, hnd, Bind.bind, Except.bind] at hu
        | ok dcount =>
          simp only [otpauthUrl, htn, han, hnd, Bind.bind, Except.bind,
            Except.ok.injEq] at hu
          refine ⟨("otpauth://" ++ asciiLowerStr tn ++ "/" ++ quote p.issuer ++
              ":" ++ quote p.name).data,
            (quote p.issuer ++ "&algorithm=" ++ asciiLowerStr an ++
              "&digits=" ++ toString dcount ++ "&counter=" ++
              toString p.counter).data, ?_⟩
          rw [← hu]
          simp [String.data_append, List.append_assoc]

/-- C10 witness: the two renderings for a concrete entry with secret byte
`0x01` (base32 `AE======`). -/
theorem c10_secret_two_renderings_witness :
    (["  otpauth://totp/I:N?secret=AE======&issuer=I&algorithm=sha1&digits=6&counter=0",
      "  secret: " ++ pyBytesRepr (b32encode [1]), "  name: N", "  issuer: I",
      "  algorithm: SHA1", "  digits: EIGHT", "  type: TOTP",
      "  counter: 0\n"] : List String)[1]? =
      some ("  secret: " ++ pyBytesRepr (b32encode [1])) ∧
    ∃ pre post,
      ("otpauth://totp/I:N?secret=AE======&issuer=I&algorithm=sha1&digits=6&counter=0" : String).data =
        pre ++ ("?secret=" ++ b32encode [1] ++ "&issuer=").data ++ post := by
  have h := c10_secret_two_renderings ⟨[1], "N", "I", 1, 2, 2, 0⟩
    "otpauth://totp/I:N?secret=AE======&issuer=I&algorithm=sha1&digits=6&counter=0"
    ["  otpauth://totp/I:N?secret=AE======&issuer=I&algorithm=sha1&digits=6&counter=0",
     "  secret: " ++ pyBytesRepr (b32encode [1]), "  name: N", "  issuer: I",
     "  algorithm: SHA1", "  digits: EIGHT", "  type: TOTP", "  counter: 0\n"]
    rfl rfl
  exact ⟨h.1, h.2.2⟩

theorem runBatch_results_ordered :
    ∀ lines rs ds, runBatch lines = .ok (rs, ds) → rs = successOutputs lines := by
  intro lines
  induction lines with
  | nil =>
    intro rs ds h
    simp only [runBatch, Except.ok.injEq, Prod.mk.injEq] at h
    simp [successOutputs, ← h.1]
  | cons line rest ih =>
    intro rs ds h
    by_cases hb : pyStrip line = ""
    · simp only [runBatch, hb, if_pos rfl, ite_true] at h
      rw [successOutputs, if_pos hb]
      exact ih rs ds (by simpa [hb] using h)
    · cases hp : process_url (pyStrip line) with
      | error e => simp [runBatch, hb, hp, Bind.bind, Except.bind] at h
      | ok pr =>
        obtain ⟨r, ds1⟩ := pr
        cases hr : runBatch rest with
        | error e => simp [runBatch, hb, hp, hr, Bind.bind, Except.bind] at h
        | ok pair =>
          obtain ⟨rs2, ds2⟩ := pair
          cases r with
          | none =>
            simp only [runBatch, hb, if_neg hb, hp, hr, Bind.bind, Except.bind,
              Option.toList, Except.ok.injEq, Prod.mk.injEq,
              List.nil_append] at h
            obtain ⟨h1, h2⟩ := h
            rw [successOutputs, if_neg hb]
            simpa [hp] using ih rs ds2 hr
          | some s =>
            simp only [runBatch, hb, if_neg hb, hp, hr, Bind.bind, Except.bind,
              Option.toList, Except.ok.injEq, Prod.mk.injEq,
              List.singleton_append] at h
            obtain ⟨h1, h2⟩ := h
            rw [successOutputs, if_neg hb]
            simp [hp, ih rs2 ds2 hr]

theorem runBatch_all_parse_failures :
    ∀ lines, (∀ l ∈ lines, pyStrip l ≠ "" →
        ∃ e, parse_url (pyStrip l) = .error e) →
      ∃ ds, runBatch lines = .ok ([], ds) := by
  intro lines
  induction lines with
  | nil => exact fun _ => ⟨[], rfl⟩
  | cons line rest ih =>
    intro hall
    obtain ⟨ds, hds⟩ := ih fun l hl => hall l (List.mem_cons_of_mem _ hl)
    by_cases hb : pyStrip line = ""
    · exact ⟨ds, by simp [runBatch, hb, hds]⟩
    · obtain ⟨e, he⟩ := hall line (List.mem_cons_self _ _) hb
      have hp : process_url (pyStrip line) = .ok (none, [e]) := by
        simp [process_url, he]
      exact ⟨e :: ds, by simp [runBatch, hb, hp, hds, Bind.bind, Except.bind]⟩

/-- C9 counterexample: a batch whose single line carries valid base64 of
wire-malformed bytes (`QUJD`, the bytes `ABC`).  Every input of this batch
fails, yet the run does not complete normally with an empty report — the
wire-decoding exception escapes `process_url` and aborts the loop. -/
theorem c9_all_fail_not_normal_counterexample :
    runBatch ["otpauth-migration://offline?data=QUJD"] =
      .error .malformedPayloadError := rfl

/-- C9 amended: a successful report block is the payload header fields
followed by one formatted block per `OtpParameter` in wire order;
successful blocks appear in input-line order; and when every input fails
at URL parsing (scheme or missing-data), the report is empty and the run
completes normally — but a line failing in a later stage aborts the run,
so the empty-report guarantee holds only for transport parse failures. -/
theorem c9_report_structure :
    (∀ p s, decode_secrets p = .ok s → ∃ bs,
      blockLines p.otp_parameters = .ok bs ∧
      s = String.intercalate "\n" (headerLines p ++ bs)) ∧
    (∀ q ps bs2, blockLines (q :: ps) = .ok bs2 → ∃ b rest2,
      paramBlock q = .ok b ∧ blockLines ps = .ok rest2 ∧ bs2 = b ++ rest2) ∧
    (∀ lines rs ds, runBatch lines = .ok (rs, ds) → rs = successOutputs lines) ∧
    (∀ lines, (∀ l ∈ lines, pyStrip l ≠ "" →
        ∃ e, parse_url (pyStrip l) = .error e) →
      ∃ ds, runBatch lines = .ok ([], ds) ∧ outputText lines = .ok "") := by
  refine ⟨?_, ?_, runBatch_results_ordered, ?_⟩
  · intro p s h
    cases hb : blockLines p.otp_parameters with
    | error e => simp [decode_secrets, hb, Bind.bind, Except.bind] at h
    | ok bs =>
      refine ⟨bs, rfl, ?_⟩
      simp only [decode_secrets, hb, Bind.bind, Except.bind,
        Except.ok.injEq] at h
      exact h.symm
  · intro q ps bs2 h
    cases hq : paramBlock q with
    | error e => simp [blockLines, hq, Bind.bind, Except.bind] at h
    | ok b =>
      cases hr : blockLines ps with
      | error e => simp [blockLines, hq, hr, Bind.bind, Except.bind] at h
      | ok rest2 =>
        simp only [blockLines, hq, hr, Bind.bind, Except.bind,
          Except.ok.injEq] at h
        exact ⟨b, rest2, rfl, rfl, h.symm⟩
  · intro lines hall
    obtain ⟨ds, hds⟩ := runBatch_all_parse_failures lines hall
    exact ⟨ds, hds, by simp [outputText, hds]; rfl⟩

/-- C9 witness: the structure facts evaluated concretely — an empty-entry
payload report, a one-entry block decomposition, result ordering for a
one-line batch, and the empty report of an all-transport-failures batch. -/
theorem c9_report_structure_witness :
    (∃ bs, blockLines (MigrationPayload.mk 0 0 0 0 []).otp_parameters = .ok bs ∧
      "version: 0\nbatch_size: 0\nbatch_index: 0\nbatch_id: 0\notp_parameters:" =
        String.intercalate "\n" (headerLines ⟨0, 0, 0, 0, []⟩ ++ bs)) ∧
    (∃ b rest2, paramBlock ⟨[1], "N", "I", 1, 2, 2, 0⟩ = .ok b ∧
      blockLines [] = .ok rest2 ∧
      ["  otpauth://totp/I:N?secret=AE======&issuer=I&algorithm=sha1&digits=6&counter=0",
       "  secret: " ++ pyBytesRepr (b32encode [1]), "  name: N", "  issuer: I",
       "  algorithm: SHA1", "  digits: EIGHT", "  type: TOTP",
       "  counter: 0\n"] = b ++ rest2) ∧
    ([] : List String) = successOutputs ["http://a"] ∧
    ∃ ds, runBatch ["http://a", " ", "notaurl"] = .ok ([], ds) ∧
      outputText ["http://a", " ", "notaurl"] = .ok "" := by
  refine ⟨c9_report_structure.1 ⟨0, 0, 0, 0, []⟩ _ rfl, ?_, ?_, ?_⟩
  · exact c9_report_structure.2.1 ⟨[1], "N", "I", 1, 2, 2, 0⟩ []
      ["  otpauth://totp/I:N?secret=AE======&issuer=I&algorithm=sha1&digits=6&counter=0",
       "  secret: " ++ pyBytesRepr (b32encode [1]), "  name: N", "  issuer: I",
       "  algorithm: SHA1", "  digits: EIGHT", "  type: TOTP", "  counter: 0\n"]
      rfl
  · exact c9_report_structure.2.2.1 ["http://a"] [] [.schemeError] rfl
  · refine c9_report_structure.2.2.2 ["http://a", " ", "notaurl"] ?_
    intro l hl hne
    simp only [List.mem_cons, List.not_mem_nil, or_false] at hl
    rcases hl with h | h | h <;> subst h
    · exact ⟨.schemeError, rfl⟩
    · exact absurd rfl hne
    · exact ⟨.schemeError, rfl⟩
